import Mathlib

/-!
Verification of the scream unix receiver dispatcher
(src/Receivers/unix/scream.c) and of the transport validation and
latency-bounded delivery components described by the design document.

The embedding below follows the C source closely: option handling is a
fold over the recognized getopt options, the two initialization phases
(output backend, then receiver) are modelled as event-producing
functions, and the infinite driver loop is modelled with explicit fuel.
Components whose implementation files are not part of the visible
sources (the frame validation helper and the delivery queue) are
modelled from the design document and marked as such.
-/

namespace Scream

/-- The C enum `receiver_type` from scream.h: transport selection. -/
inductive ReceiverType where
  | Multicast
  | Unicast
  | SharedMem
deriving DecidableEq, Repr

/-- The C enum `output_type` from scream.h: output backend selection. -/
inductive OutputType where
  | Pulseaudio
  | Alsa
  | Raw
deriving DecidableEq, Repr

/-- Which receive function pointer got installed (`rcv_network` / `rcv_shmem`). -/
inductive ReceiverKind where
  | network
  | shmem
deriving DecidableEq, Repr

/-- Which output send function pointer got installed. -/
inductive OutputKind where
  | pulse
  | alsa
  | raw
deriving DecidableEq, Repr

/-- The local state of `main` after command line parsing
(scream.c lines 110-130). `output` mirrors the `output` string variable;
the port is already reduced modulo 2^16 as by the `uint16_t` assignment. -/
structure Config where
  receiver_mode : ReceiverType
  output_mode : OutputType
  multicast_group : Option String
  ivshmem_device : Option String
  output : Option String
  alsa_device : String
  stream_name : String
  target_latency_ms : Int
  max_latency_ms : Int
  iface : Nat
  port : Nat
  verbosity : Nat
deriving DecidableEq, Repr

/-- The constant `DEFAULT_PORT` from scream.h. -/
def DEFAULT_PORT : Nat := 4010

/-- The compiled-in default output backend
(scream.c lines 113-119: Pulseaudio if enabled, else ALSA if enabled,
else Raw). -/
def defaultOutput (pulseEnabled alsaEnabled : Bool) : OutputType :=
  if pulseEnabled then OutputType.Pulseaudio
  else if alsaEnabled then OutputType.Alsa
  else OutputType.Raw

/-- The initial values of the option variables in `main`
(scream.c lines 111-129). -/
def defaultConfig (pulseEnabled alsaEnabled : Bool) : Config where
  receiver_mode := ReceiverType.Multicast
  output_mode := defaultOutput pulseEnabled alsaEnabled
  multicast_group := none
  ivshmem_device := none
  output := none
  alsa_device := "default"
  stream_name := "Audio"
  target_latency_ms := 50
  max_latency_ms := 200
  iface := 0
  port := DEFAULT_PORT
  verbosity := 0

/-- C `isspace` on the characters `atoi` skips. -/
def isSpaceC (c : Char) : Bool :=
  c = ' ' || c = '\t' || c = '\n' || c = '\x0b' || c = '\x0c' || c = '\r'

/-- Digit accumulation of C `atoi`: consume leading decimal digits,
stop at the first non-digit. -/
def atoiDigits : List Char → Nat → Nat
  | [], acc => acc
  | c :: cs, acc =>
      if c.isDigit then atoiDigits cs (acc * 10 + (c.toNat - 48)) else acc

/-- C `atoi`: skip whitespace, optional sign, then decimal digits;
yields 0 when no digits are present. -/
def atoi (s : String) : Int :=
  match s.toList.dropWhile isSpaceC with
  | '-' :: rest => -(atoiDigits rest 0 : Int)
  | '+' :: rest => (atoiDigits rest 0 : Int)
  | cs => (atoiDigits cs 0 : Int)

/-- One recognized command line option together with its argument,
as produced by `getopt(argc, argv, "i:g:p:m:o:d:n:t:l:uvh")`.
`unknown` stands for any character getopt rejects. -/
inductive CmdOpt where
  | i (arg : String)
  | g (arg : String)
  | p (arg : String)
  | m (arg : String)
  | o (arg : String)
  | d (arg : String)
  | n (arg : String)
  | t (arg : String)
  | l (arg : String)
  | u
  | v
  | h
  | unknown
deriving DecidableEq, Repr

/-- How `main` aborts during option processing: `usage` is `show_usage`
(prints the usage text, `exit(1)`); `badIface` is the error exit of
`get_interface` (prints the interface list, `exit(1)`). -/
inductive AbortKind where
  | usage
  | badIface
deriving DecidableEq, Repr

/-- One case of the option `switch` in `main` (scream.c lines 133-176).
`resolve` abstracts `get_interface`, which either yields an address or
exits the process. -/
def applyOpt (resolve : String → Option Nat) (cfg : Config) :
    CmdOpt → Except AbortKind Config
  | CmdOpt.i s =>
      match resolve s with
      | some a => Except.ok { cfg with iface := a }
      | none => Except.error AbortKind.badIface
  | CmdOpt.p s =>
      let v := ((atoi s) % 65536).toNat
      if v = 0 then Except.error AbortKind.usage
      else Except.ok { cfg with port := v }
  | CmdOpt.u => Except.ok { cfg with receiver_mode := ReceiverType.Unicast }
  | CmdOpt.g s => Except.ok { cfg with multicast_group := some s }
  | CmdOpt.m s =>
      Except.ok { cfg with
        receiver_mode := ReceiverType.SharedMem, ivshmem_device := some s }
  | CmdOpt.o s =>
      Except.ok { cfg with
        output := some s
        output_mode :=
          if s = "pulse" then OutputType.Pulseaudio
          else if s = "alsa" then OutputType.Alsa
          else if s = "raw" then OutputType.Raw
          else cfg.output_mode }
  | CmdOpt.d s => Except.ok { cfg with alsa_device := s }
  | CmdOpt.n s => Except.ok { cfg with stream_name := s }
  | CmdOpt.t s =>
      let v := atoi s
      if v < 0 then Except.error AbortKind.usage
      else Except.ok { cfg with target_latency_ms := v }
  | CmdOpt.l s =>
      let v := atoi s
      if v < 0 then Except.error AbortKind.usage
      else Except.ok { cfg with max_latency_ms := v }
  | CmdOpt.v => Except.ok { cfg with verbosity := cfg.verbosity + 1 }
  | CmdOpt.h => Except.error AbortKind.usage
  | CmdOpt.unknown => Except.error AbortKind.usage

/-- The whole getopt loop of `main`: options applied left to right,
stopping at the first abort. -/
def parseOpts (resolve : String → Option Nat) (cfg : Config) :
    List CmdOpt → Except AbortKind Config
  | [] => Except.ok cfg
  | o :: rest =>
      match applyOpt resolve cfg o with
      | Except.ok cfg1 => parseOpts resolve cfg1 rest
      | Except.error k => Except.error k

/-- Observable calls made by `main`: the usage printout, the output
backend initializations with the exact arguments the C code passes
(scream.c lines 188-221), the receiver initializations (lines 224-237),
and the per-iteration receive/send calls of the driver loop
(lines 240-244). -/
inductive Event where
  | usage
  | initPulse (target_latency_ms max_latency_ms : Int) (stream_name : String)
  | initAlsa (target_latency_ms : Int) (alsa_device : String)
  | initRaw
  | initShmem (device : Option String)
  | initNetwork (mode : ReceiverType) (iface : Nat) (port : Nat)
      (group : Option String)
  | receive (r : ReceiverKind)
  | send (o : OutputKind)
deriving DecidableEq, Repr

/-- Events that initialize a transport. -/
def Event.isTransportInit : Event → Bool
  | Event.initShmem _ => true
  | Event.initNetwork _ _ _ _ => true
  | _ => false

/-- Events that initialize an output backend. -/
def Event.isOutputInit : Event → Bool
  | Event.initPulse _ _ _ => true
  | Event.initAlsa _ _ => true
  | Event.initRaw => true
  | _ => false

/-- Integer arguments carried by an initialization call. -/
def Event.intArgs : Event → List Int
  | Event.initPulse t m _ => [t, m]
  | Event.initAlsa t _ => [t]
  | _ => []

/-- The parts of the process environment `main` interacts with: which
backends were compiled in, the return values of the backend init
functions, and the return value of the i-th `output_send_fn` call. -/
structure Env where
  pulseEnabled : Bool
  alsaEnabled : Bool
  resolveIface : String → Option Nat
  pulseInit : Int → Int → String → Int
  alsaInit : Int → String → Int
  rawInit : Int
  sendStatus : Nat → Int

/-- The output initialization `switch` (scream.c lines 188-221): emits
the init call for the selected backend and yields the installed send
function, or `none` when `main` returns 1 (init failed, or the backend
was selected but compiled out). -/
def outputPhase (env : Env) (cfg : Config) : List Event × Option OutputKind :=
  match cfg.output_mode with
  | OutputType.Pulseaudio =>
      if env.pulseEnabled then
        ([Event.initPulse cfg.target_latency_ms cfg.max_latency_ms
            cfg.stream_name],
         if env.pulseInit cfg.target_latency_ms cfg.max_latency_ms
              cfg.stream_name = 0
         then some OutputKind.pulse else none)
      else ([], none)
  | OutputType.Alsa =>
      if env.alsaEnabled then
        ([Event.initAlsa cfg.target_latency_ms cfg.alsa_device],
         if env.alsaInit cfg.target_latency_ms cfg.alsa_device = 0
         then some OutputKind.alsa else none)
      else ([], none)
  | OutputType.Raw =>
      ([Event.initRaw],
       if env.rawInit = 0 then some OutputKind.raw else none)

/-- The receiver initialization `switch` (scream.c lines 224-237):
shared memory when selected, otherwise the network receiver with the
configured mode, interface, port and group. -/
def receiverPhase (cfg : Config) : List Event × ReceiverKind :=
  match cfg.receiver_mode with
  | ReceiverType.SharedMem =>
      ([Event.initShmem cfg.ivshmem_device], ReceiverKind.shmem)
  | m =>
      ([Event.initNetwork m cfg.iface cfg.port cfg.multicast_group],
       ReceiverKind.network)

/-- The driver loop (scream.c lines 240-244), run for at most `fuel`
iterations starting at iteration index `start`: each iteration calls
the installed receive function then the installed send function, and
`main` returns 1 as soon as the send status is nonzero. The second
component is `some 1` when the loop exited, `none` when the fuel ran
out with the loop still going. -/
def loopRun (recv : ReceiverKind) (out : OutputKind) (status : Nat → Int) :
    Nat → Nat → List Event × Option Nat
  | 0, _ => ([], none)
  | fuel + 1, start =>
      let ev := [Event.receive recv, Event.send out]
      if status start ≠ 0 then (ev, some 1)
      else
        let r := loopRun recv out status fuel (start + 1)
        (ev ++ r.1, r.2)

/-- Number of iterations the driver loop executes within `fuel`. -/
def loopIters (status : Nat → Int) : Nat → Nat → Nat
  | 0, _ => 0
  | fuel + 1, start =>
      if status start ≠ 0 then 1 else loopIters status fuel (start + 1) + 1

/-- Result of a (fuel-bounded) run of `main`: the event trace and the
exit status; `exit = none` means the driver loop was still running when
the fuel ran out. -/
structure MainResult where
  events : List Event
  exit : Option Nat
deriving DecidableEq, Repr

/-- The function `main` (scream.c lines 101-246): parse the options, reject trailing
non-option arguments, initialize the selected output backend, then the
selected receiver, then run the driver loop on `fuel` iterations.
`trailing` models `optind < argc`. -/
def runMain (env : Env) (opts : List CmdOpt) (trailing : Bool) (fuel : Nat) :
    MainResult :=
  match parseOpts env.resolveIface
      (defaultConfig env.pulseEnabled env.alsaEnabled) opts with
  | Except.error AbortKind.usage => ⟨[Event.usage], some 1⟩
  | Except.error AbortKind.badIface => ⟨[], some 1⟩
  | Except.ok cfg =>
      if trailing then ⟨[Event.usage], some 1⟩
      else
        match outputPhase env cfg with
        | (evo, none) => ⟨evo, some 1⟩
        | (evo, some out) =>
            let pr := receiverPhase cfg
            let pl := loopRun pr.2 out env.sendStatus fuel 0
            ⟨evo ++ pr.1 ++ pl.1, pl.2⟩

/-- Audio format descriptor attached to every frame (spec data model). -/
structure AudioFormat where
  sample_rate : Nat
  sample_bits : Nat
  channels : Nat
  channel_mask : Nat
deriving DecidableEq, Repr

/-- One unit of audio moving through the pipeline: a format plus a PCM
payload, kept here as its byte list. -/
structure Frame where
  format : AudioFormat
  payload : List Nat
deriving DecidableEq, Repr

/-- Payload length in bytes. -/
def Frame.payload_len (fr : Frame) : Nat := fr.payload.length

/-- Bytes per sample frame implied by a format: channels times bytes
per sample. -/
def AudioFormat.frameBytes (f : AudioFormat) : Nat :=
  f.channels * (f.sample_bits / 8)

/-- Modelled from the spec: the supported-range part of the shared
validation helper of the transports (its implementation file is not
among the visible sources): channels in [1,255], sample_bits one of
8/16/24/32. -/
def validFormat (f : AudioFormat) : Bool :=
  1 ≤ f.channels && f.channels ≤ 255 &&
    (f.sample_bits = 8 || f.sample_bits = 16 ||
     f.sample_bits = 24 || f.sample_bits = 32)

/-- Modelled from the spec: the shared Frame/AudioFormat validation
helper used by both transports (its implementation file is not among
the visible sources): a frame passes exactly when its format is in
range and its payload length is a whole multiple of
channels times sample_bits/8; anything else is dropped. -/
def validateFrame (fr : Frame) : Option Frame :=
  if validFormat fr.format && fr.payload_len % fr.format.frameBytes = 0
  then some fr else none

/-- Modelled from the spec: a network datagram is a 5-byte header
(sample rate code, sample bits, channels, 2 bytes of channel mask)
followed by the PCM payload; shorter datagrams are discarded. The
decoding of the rate code byte into a sample rate is left open by the
spec and kept abstract via `rateOf`. -/
def parseDatagram (rateOf : Nat → Nat) (d : List Nat) : Option Frame :=
  match d with
  | rc :: bits :: ch :: m0 :: m1 :: payload =>
      some { format := { sample_rate := rateOf rc, sample_bits := bits,
                         channels := ch, channel_mask := m0 + 256 * m1 },
             payload := payload }
  | _ => none

/-- Modelled from the spec: the frames a transport hands downstream to
Delivery from a sequence of incoming datagrams — each datagram is
parsed and validated, and a datagram failing either step is dropped,
never forwarded. -/
def transportDeliver (rateOf : Nat → Nat) (ds : List (List Nat)) :
    List Frame :=
  ds.filterMap (fun d => (parseDatagram rateOf d).bind validateFrame)

/-- State of Latency-Bounded Delivery: the format of the previous frame
(none before the first frame) and the FIFO queue of frames awaiting
playback, oldest first. -/
structure DeliveryState where
  current : Option AudioFormat
  queue : List Frame
deriving DecidableEq, Repr

/-- Calls Delivery makes on the Sink: hand over one frame, or notify a
reconfiguration to a new format. -/
inductive SinkEvent where
  | deliver (fr : Frame)
  | reconfigure (f : AudioFormat)
deriving DecidableEq, Repr

/-- Bytes per second implied by a format. -/
def AudioFormat.bytesPerSec (f : AudioFormat) : Nat :=
  f.sample_rate * f.frameBytes

/-- Total queued bytes. -/
def queuedBytes (q : List Frame) : Nat :=
  (q.map Frame.payload_len).sum

/-- Whether the buffered duration of queue `q` exceeds `ms`
milliseconds under format `f`: bytes/bytesPerSec > ms/1000, stated by
cross multiplication so no division is involved. -/
def durExceeds (q : List Frame) (f : AudioFormat) (ms : Nat) : Bool :=
  queuedBytes q * 1000 > ms * f.bytesPerSec

/-- Modelled from the spec: the overrun-correction of Delivery (its
implementation file is not among the visible sources): drop the oldest
queued frames, FIFO order, until the buffered duration is back at or
below the target latency. -/
def trimTo (f : AudioFormat) (target : Nat) : List Frame → List Frame
  | [] => []
  | fr :: rest =>
      if durExceeds (fr :: rest) f target then trimTo f target rest
      else fr :: rest

/-- Modelled from the spec: one step of Latency-Bounded Delivery on an
incoming frame (its implementation file is not among the visible
sources). If the frame's format differs from the previous frame's, the
queue is flushed to the sink and the sink is notified of the
reconfiguration before the new frame is queued; after enqueueing, if
the buffered duration exceeds the maximum latency, the oldest frames
are dropped until it is back at or below the target latency. -/
def deliveryStep (target maxLat : Nat) (st : DeliveryState) (fr : Frame) :
    DeliveryState × List SinkEvent :=
  let flushed :=
    if st.current = some fr.format then (st.queue, ([] : List SinkEvent))
    else ([], st.queue.map SinkEvent.deliver ++
              [SinkEvent.reconfigure fr.format])
  let q1 := flushed.1 ++ [fr]
  let q2 := if durExceeds q1 fr.format maxLat then trimTo fr.format target q1
            else q1
  (⟨some fr.format, q2⟩, flushed.2)

/-- Feeding a list of frames through Delivery, collecting the sink
calls in order. -/
def deliveryRun (target maxLat : Nat) (st : DeliveryState) :
    List Frame → DeliveryState × List SinkEvent
  | [] => (st, [])
  | fr :: rest =>
      let s1 := deliveryStep target maxLat st fr
      let s2 := deliveryRun target maxLat s1.1 rest
      (s2.1, s1.2 ++ s2.2)

/-- All frames in the queue carry the format Delivery last saw. -/
def DeliveryState.formatInv (st : DeliveryState) : Prop :=
  ∀ g ∈ st.queue, some g.format = st.current

/-- What the sink believes its configured format is after a list of
calls: each reconfiguration overwrites it. -/
def curAfter : Option AudioFormat → List SinkEvent → Option AudioFormat
  | cur, [] => cur
  | _, SinkEvent.reconfigure f :: rest => curAfter (some f) rest
  | cur, SinkEvent.deliver _ :: rest => curAfter cur rest

/-- The sink, starting configured at `cur`, only ever receives frames
matching its currently configured format: formats are never
interleaved with stale audio. -/
def sinkSeesNoStale : Option AudioFormat → List SinkEvent → Bool
  | _, [] => true
  | _, SinkEvent.reconfigure f :: rest => sinkSeesNoStale (some f) rest
  | cur, SinkEvent.deliver fr :: rest =>
      cur = some fr.format && sinkSeesNoStale cur rest

/-- Number of reconfiguration calls among sink events. -/
def reconfigCount (evs : List SinkEvent) : Nat :=
  (evs.filter (fun e => match e with
    | SinkEvent.reconfigure _ => true
    | _ => false)).length

/-- A concrete environment for evaluation: both backends compiled in,
all init calls succeeding, the third send call failing fatally. -/
def envOkAll : Env where
  pulseEnabled := true
  alsaEnabled := true
  resolveIface := fun _ => none
  pulseInit := fun _ _ _ => 0
  alsaInit := fun _ _ => 0
  rawInit := 0
  sendStatus := fun i => if i = 2 then 1 else 0

/-- Like `envOkAll` but the Pulseaudio init call fails. -/
def envPulseInitFails : Env :=
  { envOkAll with pulseInit := fun _ _ _ => 1 }

/-- The configuration produced by the single option `-m /dev/shm`. -/
def cfgShm : Config :=
  { defaultConfig true true with
      receiver_mode := ReceiverType.SharedMem,
      ivshmem_device := some "/dev/shm" }

/-- 44100 Hz, 16 bit, stereo. -/
def fmtA : AudioFormat := ⟨44100, 16, 2, 0⟩

/-- 48000 Hz, 16 bit, stereo. -/
def fmtB : AudioFormat := ⟨48000, 16, 2, 0⟩

/-- A small frame of format `fmtA`. -/
def frA : Frame := ⟨fmtA, [0, 0, 0, 0]⟩

/-- A small frame of format `fmtB`. -/
def frB : Frame := ⟨fmtB, [1, 1, 1, 1]⟩

/-- Delivery configured for `fmtA` with one `fmtA` frame queued. -/
def stAB : DeliveryState := ⟨some fmtA, [frA]⟩

/-- 1000 Hz, 8 bit, mono: one byte of payload is one millisecond. -/
def fmtS : AudioFormat := ⟨1000, 8, 1, 0⟩

/-- A 50 ms frame of format `fmtS`. -/
def frS : Frame := ⟨fmtS, List.replicate 50 0⟩

/-- Delivery configured for `fmtS` holding 250 ms of audio. -/
def stS : DeliveryState := ⟨some fmtS, List.replicate 5 frS⟩

end Scream

namespace Scream

theorem loopRun_events_shape (recv : ReceiverKind) (out : OutputKind)
    (status : Nat → Int) :
    ∀ fuel start, (loopRun recv out status fuel start).1 =
      List.flatten (List.replicate (loopIters status fuel start)
        [Event.receive recv, Event.send out]) := by
  intro fuel
  induction fuel with
  | zero => intro start; simp [loopRun, loopIters]
  | succ n ih =>
      intro start
      by_cases h : status start = 0
      · simp [loopRun, loopIters, h, ih (start + 1), List.replicate_succ]
      · simp [loopRun, loopIters, h]

theorem loopRun_exit_iff (recv : ReceiverKind) (out : OutputKind)
    (status : Nat → Int) :
    ∀ fuel start, (loopRun recv out status fuel start).2 = some 1 ↔
      ∃ i, i < fuel ∧ status (start + i) ≠ 0 := by
  intro fuel
  induction fuel with
  | zero => intro start; simp [loopRun]
  | succ n ih =>
      intro start
      by_cases h : status start = 0
      · simp only [loopRun, h, ne_eq, not_true_eq_false, if_false]
        rw [ih (start + 1)]
        constructor
        · rintro ⟨i, hi, hs⟩
          refine ⟨i + 1, by omega, ?_⟩
          have : start + (i + 1) = start + 1 + i := by omega
          rw [this]; exact hs
        · rintro ⟨i, hi, hs⟩
          cases i with
          | zero => simp at hs; exact absurd h hs
          | succ j =>
              refine ⟨j, by omega, ?_⟩
              have : start + 1 + j = start + (j + 1) := by omega
              rw [this]; exact hs
      · simp only [loopRun, h, ne_eq, not_false_eq_true, if_true]
        constructor
        · intro _; exact ⟨0, by omega, by simpa using h⟩
        · intro _; trivial

theorem loopRun_exit_cases (recv : ReceiverKind) (out : OutputKind)
    (status : Nat → Int) :
    ∀ fuel start, (loopRun recv out status fuel start).2 = none ∨
      (loopRun recv out status fuel start).2 = some 1 := by
  intro fuel
  induction fuel with
  | zero => intro start; left; rfl
  | succ n ih =>
      intro start
      by_cases h : status start = 0
      · simpa [loopRun, h] using ih (start + 1)
      · right; simp [loopRun, h]

theorem loopRun_mem (recv : ReceiverKind) (out : OutputKind)
    (status : Nat → Int) :
    ∀ fuel start e, e ∈ (loopRun recv out status fuel start).1 →
      e = Event.receive recv ∨ e = Event.send out := by
  intro fuel
  induction fuel with
  | zero => intro start e he; simp [loopRun] at he
  | succ n ih =>
      intro start e he
      by_cases h : status start = 0
      · simp only [loopRun, h, ne_eq, not_true_eq_false, if_false,
          List.mem_append, List.mem_cons, List.mem_singleton] at he
        rcases he with (he | he) | he
        · left; exact he
        · right; simpa using he
        · exact ih (start + 1) e he
      · simp only [loopRun, h, ne_eq, not_false_eq_true, if_true,
          List.mem_cons, List.mem_singleton] at he
        rcases he with he | he
        · left; exact he
        · right; simpa using he

/-- C1: the driver loop (scream.c lines 240-244) performs one receive
call followed by one send call per iteration; it keeps iterating while
the send status is zero, and it exits, with the nonzero process exit
status 1, exactly when some send within the fuel bound returns a
nonzero (fatal) status — a fatal send status is the only way out. -/
theorem C1_driver_loop (recv : ReceiverKind) (out : OutputKind)
    (status : Nat → Int) (fuel start : Nat) :
    ((loopRun recv out status fuel start).1 =
        List.flatten (List.replicate (loopIters status fuel start)
          [Event.receive recv, Event.send out])) ∧
      ((loopRun recv out status fuel start).2 = some 1 ↔
        ∃ i, i < fuel ∧ status (start + i) ≠ 0) ∧
      ((loopRun recv out status fuel start).2 = none ∨
        (loopRun recv out status fuel start).2 = some 1) :=
  ⟨loopRun_events_shape recv out status fuel start,
   loopRun_exit_iff recv out status fuel start,
   loopRun_exit_cases recv out status fuel start⟩

theorem parseOpts_append (resolve : String → Option Nat) (cfg : Config)
    (l1 l2 : List CmdOpt) :
    parseOpts resolve cfg (l1 ++ l2) =
      match parseOpts resolve cfg l1 with
      | Except.ok cfg1 => parseOpts resolve cfg1 l2
      | Except.error k => Except.error k := by
  induction l1 generalizing cfg with
  | nil => simp [parseOpts]
  | cons o rest ih =>
      simp only [List.cons_append, parseOpts]
      cases applyOpt resolve cfg o with
      | ok cfg1 => exact ih cfg1
      | error k => rfl

theorem runMain_usage (env : Env) (opts : List CmdOpt) (trailing : Bool)
    (fuel : Nat)
    (hp : parseOpts env.resolveIface
        (defaultConfig env.pulseEnabled env.alsaEnabled) opts =
      Except.error AbortKind.usage) :
    runMain env opts trailing fuel = ⟨[Event.usage], some 1⟩ := by
  unfold runMain
  rw [hp]

theorem runMain_output_fail (env : Env) (opts : List CmdOpt) (fuel : Nat)
    (cfg : Config)
    (hp : parseOpts env.resolveIface
        (defaultConfig env.pulseEnabled env.alsaEnabled) opts =
      Except.ok cfg)
    (hf : (outputPhase env cfg).2 = none) :
    runMain env opts false fuel = ⟨(outputPhase env cfg).1, some 1⟩ := by
  unfold runMain
  rw [hp]
  rcases hoc : outputPhase env cfg with ⟨evo, k⟩
  rw [hoc] at hf
  simp only at hf
  subst hf
  simp [hoc]

theorem runMain_output_ok (env : Env) (opts : List CmdOpt) (fuel : Nat)
    (cfg : Config) (out : OutputKind)
    (hp : parseOpts env.resolveIface
        (defaultConfig env.pulseEnabled env.alsaEnabled) opts =
      Except.ok cfg)
    (ho : (outputPhase env cfg).2 = some out) :
    runMain env opts false fuel =
      ⟨(outputPhase env cfg).1 ++ (receiverPhase cfg).1 ++
          (loopRun (receiverPhase cfg).2 out env.sendStatus fuel 0).1,
        (loopRun (receiverPhase cfg).2 out env.sendStatus fuel 0).2⟩ := by
  unfold runMain
  rw [hp]
  rcases hoc : outputPhase env cfg with ⟨evo, k⟩
  rw [hoc] at ho
  simp only at ho
  subst ho
  simp [hoc]

theorem outputPhase_mem_isOutputInit (env : Env) (cfg : Config) :
    ∀ e ∈ (outputPhase env cfg).1, e.isOutputInit = true := by
  intro e he
  cases hm : cfg.output_mode with
  | Pulseaudio =>
      by_cases hp : env.pulseEnabled <;>
        simp [outputPhase, hm, hp] at he <;>
        simp [he, Event.isOutputInit]
  | Alsa =>
      by_cases ha : env.alsaEnabled <;>
        simp [outputPhase, hm, ha] at he <;>
        simp [he, Event.isOutputInit]
  | Raw =>
      simp [outputPhase, hm] at he
      simp [he, Event.isOutputInit]

/-- C3: when the selected output backend fails to initialize
(scream.c lines 188-221, the `return 1` branches), `main` exits with
status 1 without ever initializing a transport, calling a receive
function or calling a send function. -/
theorem C3_init_failure_aborts (env : Env) (opts : List CmdOpt) (fuel : Nat)
    (cfg : Config)
    (hp : parseOpts env.resolveIface
        (defaultConfig env.pulseEnabled env.alsaEnabled) opts =
      Except.ok cfg)
    (hf : (outputPhase env cfg).2 = none) :
    (runMain env opts false fuel).exit = some 1 ∧
      ∀ e ∈ (runMain env opts false fuel).events,
        (∀ r, e ≠ Event.receive r) ∧ (∀ o, e ≠ Event.send o) ∧
        e.isTransportInit = false := by
  have h := runMain_output_fail env opts fuel cfg hp hf
  rw [h]
  refine ⟨rfl, ?_⟩
  intro e he
  have hinit := outputPhase_mem_isOutputInit env cfg e he
  cases e <;> simp_all [Event.isOutputInit, Event.isTransportInit]

/-- Witness for C3: Pulseaudio selected by default, its init failing. -/
theorem C3_init_failure_aborts_witness :
    (parseOpts envPulseInitFails.resolveIface
        (defaultConfig envPulseInitFails.pulseEnabled
          envPulseInitFails.alsaEnabled) [] =
      Except.ok (defaultConfig true true)) ∧
      (outputPhase envPulseInitFails (defaultConfig true true)).2 = none ∧
      ((runMain envPulseInitFails [] false 3).exit = some 1 ∧
        ∀ e ∈ (runMain envPulseInitFails [] false 3).events,
          (∀ r, e ≠ Event.receive r) ∧ (∀ o, e ≠ Event.send o) ∧
          e.isTransportInit = false) :=
  ⟨rfl, rfl,
   C3_init_failure_aborts envPulseInitFails [] 3 (defaultConfig true true)
     rfl rfl⟩

/-- C10: an invocation where `-p` parses (through `atoi` and the
`uint16_t` conversion) to port 0, or `-t` parses to a negative target
latency, or `-l` parses to a negative maximum latency, prints the
usage text and exits with status 1 before any output backend or
transport initialization (scream.c lines 137-139 and 163-169,
`show_usage` lines 30-59). -/
theorem C10_bad_option_usage (env : Env) (pre rest : List CmdOpt)
    (trailing : Bool) (fuel : Nat) (cfg1 : Config) (o : CmdOpt)
    (hpre : parseOpts env.resolveIface
        (defaultConfig env.pulseEnabled env.alsaEnabled) pre =
      Except.ok cfg1)
    (ho : (∃ s, o = CmdOpt.p s ∧ ((atoi s) % 65536).toNat = 0) ∨
          (∃ s, o = CmdOpt.t s ∧ atoi s < 0) ∨
          (∃ s, o = CmdOpt.l s ∧ atoi s < 0)) :
    runMain env (pre ++ o :: rest) trailing fuel =
      ⟨[Event.usage], some 1⟩ := by
  have happ : applyOpt env.resolveIface cfg1 o =
      Except.error AbortKind.usage := by
    rcases ho with ⟨s, rfl, hs⟩ | ⟨s, rfl, hs⟩ | ⟨s, rfl, hs⟩ <;>
      simp [applyOpt, hs]
  have hparse : parseOpts env.resolveIface
      (defaultConfig env.pulseEnabled env.alsaEnabled) (pre ++ o :: rest) =
      Except.error AbortKind.usage := by
    rw [parseOpts_append, hpre]
    simp [parseOpts, happ]
  exact runMain_usage env _ trailing fuel hparse

/-- Witness for C10: `-p abc` parses to port 0 and aborts with usage. -/
theorem C10_bad_option_usage_witness :
    (parseOpts envOkAll.resolveIface
        (defaultConfig envOkAll.pulseEnabled envOkAll.alsaEnabled) [] =
      Except.ok (defaultConfig true true)) ∧
      ((atoi "abc") % 65536).toNat = 0 ∧
      runMain envOkAll ([] ++ CmdOpt.p "abc" :: []) false 5 =
        ⟨[Event.usage], some 1⟩ :=
  ⟨rfl, by decide,
   C10_bad_option_usage envOkAll [] [] false 5 (defaultConfig true true)
     (CmdOpt.p "abc") rfl (Or.inl ⟨"abc", rfl, by decide⟩)⟩

/-- C9: an unrecognized `-o` argument is silently accepted: option
processing succeeds, only the `output` string is recorded, and the
compiled-in default backend remains selected
(scream.c lines 151-156 have no fallback branch). -/
theorem C9_unknown_output_ignored (resolve : String → Option Nat)
    (cfg : Config) (s : String)
    (h1 : s ≠ "pulse") (h2 : s ≠ "alsa") (h3 : s ≠ "raw") :
    applyOpt resolve cfg (CmdOpt.o s) =
        Except.ok { cfg with output := some s } ∧
      ∀ pe ae : Bool,
        (parseOpts resolve (defaultConfig pe ae) [CmdOpt.o s]).toOption.map
            Config.output_mode = some (defaultOutput pe ae) := by
  constructor
  · simp [applyOpt, h1, h2, h3]
  · intro pe ae
    simp [parseOpts, applyOpt, h1, h2, h3, defaultConfig]
    exact ⟨_, rfl, rfl⟩

/-- Witness for C9 at the unrecognized value "jack". -/
theorem C9_unknown_output_ignored_witness :
    (("jack" : String) ≠ "pulse" ∧ ("jack" : String) ≠ "alsa" ∧
        ("jack" : String) ≠ "raw") ∧
      (applyOpt envOkAll.resolveIface (defaultConfig true true)
          (CmdOpt.o "jack") =
        Except.ok { defaultConfig true true with output := some "jack" } ∧
      ∀ pe ae : Bool,
        (parseOpts envOkAll.resolveIface (defaultConfig pe ae)
            [CmdOpt.o "jack"]).toOption.map
          Config.output_mode = some (defaultOutput pe ae)) :=
  ⟨⟨by decide, by decide, by decide⟩,
   C9_unknown_output_ignored envOkAll.resolveIface (defaultConfig true true)
     "jack" (by decide) (by decide) (by decide)⟩

/-- C2 counterexample: with `-o alsa -l 999` the configured maximum
latency is 999 ms, yet the only output init call is
`alsa_output_init(50, "default")` — no init call of the run carries
the maximum latency, so the ALSA sink is not initialized with the
maximum latency (and the Raw sink would receive no arguments at all):
the claimed uniform contract does not hold for every backend. -/
theorem C2_sink_init_counterexample :
    ((parseOpts envOkAll.resolveIface
          (defaultConfig envOkAll.pulseEnabled envOkAll.alsaEnabled)
          [CmdOpt.o "alsa", CmdOpt.l "999"]).toOption.map
        Config.max_latency_ms = some 999) ∧
      (runMain envOkAll [CmdOpt.o "alsa", CmdOpt.l "999"] false 0).events =
        [Event.initAlsa 50 "default",
         Event.initNetwork ReceiverType.Multicast 0 4010 none] ∧
      ∀ e ∈ (runMain envOkAll [CmdOpt.o "alsa", CmdOpt.l "999"]
          false 0).events, (999 : Int) ∉ e.intArgs := by
  decide

/-- C2 amended: each backend's init call happens before the driver
loop and yields a success/failure status, but the arguments differ per
backend: Pulseaudio receives target latency, maximum latency and the
stream name; ALSA receives only target latency and the device name;
Raw receives nothing. -/
theorem C2_sink_init_amended (env : Env) (cfg : Config) :
    (cfg.output_mode = OutputType.Pulseaudio → env.pulseEnabled = true →
      (outputPhase env cfg).1 =
          [Event.initPulse cfg.target_latency_ms cfg.max_latency_ms
            cfg.stream_name] ∧
        ((outputPhase env cfg).2.isSome ↔
          env.pulseInit cfg.target_latency_ms cfg.max_latency_ms
            cfg.stream_name = 0)) ∧
      (cfg.output_mode = OutputType.Alsa → env.alsaEnabled = true →
        (outputPhase env cfg).1 =
            [Event.initAlsa cfg.target_latency_ms cfg.alsa_device] ∧
          ((outputPhase env cfg).2.isSome ↔
            env.alsaInit cfg.target_latency_ms cfg.alsa_device = 0)) ∧
      (cfg.output_mode = OutputType.Raw →
        (outputPhase env cfg).1 = [Event.initRaw] ∧
          ((outputPhase env cfg).2.isSome ↔ env.rawInit = 0)) ∧
      ∀ opts fuel,
        parseOpts env.resolveIface
            (defaultConfig env.pulseEnabled env.alsaEnabled) opts =
          Except.ok cfg →
        ∃ tl, (runMain env opts false fuel).events =
            (outputPhase env cfg).1 ++ tl ∧
          ((outputPhase env cfg).2 = none → tl = []) := by
  refine ⟨?_, ?_, ?_, ?_⟩
  · intro hm hen
    constructor
    · simp [outputPhase, hm, hen]
    · by_cases h0 : env.pulseInit cfg.target_latency_ms cfg.max_latency_ms
          cfg.stream_name = 0 <;> simp [outputPhase, hm, hen, h0]
  · intro hm hen
    constructor
    · simp [outputPhase, hm, hen]
    · by_cases h0 : env.alsaInit cfg.target_latency_ms cfg.alsa_device
          = 0 <;> simp [outputPhase, hm, hen, h0]
  · intro hm
    constructor
    · simp [outputPhase, hm]
    · by_cases h0 : env.rawInit = 0 <;> simp [outputPhase, hm, h0]
  · intro opts fuel hp
    cases ho : (outputPhase env cfg).2 with
    | none =>
        refine ⟨[], ?_, fun _ => rfl⟩
        rw [runMain_output_fail env opts fuel cfg hp ho]
        simp
    | some out =>
        refine ⟨(receiverPhase cfg).1 ++
          (loopRun (receiverPhase cfg).2 out env.sendStatus fuel 0).1,
          ?_, ?_⟩
        · rw [runMain_output_ok env opts fuel cfg out hp ho]
          simp
        · intro hno; exact absurd hno (by simp)

/-- Witness for C2 amended: default Pulseaudio configuration. -/
theorem C2_sink_init_amended_witness :
    ((defaultConfig true true).output_mode = OutputType.Pulseaudio) ∧
      ((outputPhase envOkAll (defaultConfig true true)).1 =
          [Event.initPulse 50 200 "Audio"] ∧
        ((outputPhase envOkAll (defaultConfig true true)).2.isSome ↔
          envOkAll.pulseInit 50 200 "Audio" = 0)) :=
  ⟨rfl, (C2_sink_init_amended envOkAll (defaultConfig true true)).1 rfl rfl⟩

theorem runMain_variant_kinds (env : Env) (opts : List CmdOpt) (fuel : Nat)
    (cfg : Config) (out : OutputKind)
    (hp : parseOpts env.resolveIface
        (defaultConfig env.pulseEnabled env.alsaEnabled) opts =
      Except.ok cfg)
    (ho : (outputPhase env cfg).2 = some out) :
    ∀ e ∈ (runMain env opts false fuel).events,
      (∀ r, e = Event.receive r → r = (receiverPhase cfg).2) ∧
      (∀ o2, e = Event.send o2 → o2 = out) := by
  rw [runMain_output_ok env opts fuel cfg out hp ho]
  intro e he
  simp only [List.mem_append] at he
  rcases he with (he | he) | he
  · have h2 := outputPhase_mem_isOutputInit env cfg e he
    cases e <;> simp_all [Event.isOutputInit]
  · cases hm : cfg.receiver_mode <;> simp [receiverPhase, hm] at he <;>
      subst he <;> simp
  · rcases loopRun_mem _ _ _ fuel 0 e he with h | h <;> subst h <;> simp

theorem receiverPhase_of_shm (cfg : Config)
    (hm : cfg.receiver_mode = ReceiverType.SharedMem) :
    receiverPhase cfg =
      ([Event.initShmem cfg.ivshmem_device], ReceiverKind.shmem) := by
  simp [receiverPhase, hm]

theorem receiverPhase_of_net (cfg : Config)
    (hm : cfg.receiver_mode ≠ ReceiverType.SharedMem) :
    receiverPhase cfg =
      ([Event.initNetwork cfg.receiver_mode cfg.iface cfg.port
          cfg.multicast_group], ReceiverKind.network) := by
  cases hm2 : cfg.receiver_mode with
  | SharedMem => exact absurd hm2 hm
  | Multicast => simp [receiverPhase, hm2]
  | Unicast => simp [receiverPhase, hm2]

theorem outputPhase_filter_transport (env : Env) (cfg : Config) :
    (outputPhase env cfg).1.filter Event.isTransportInit = [] := by
  refine List.filter_eq_nil_iff.mpr ?_
  intro e he
  have h2 := outputPhase_mem_isOutputInit env cfg e he
  cases e <;> simp_all [Event.isOutputInit, Event.isTransportInit]

theorem loopRun_filter_transport (rk : ReceiverKind) (out : OutputKind)
    (status : Nat → Int) (fuel start : Nat) :
    (loopRun rk out status fuel start).1.filter Event.isTransportInit
      = [] := by
  refine List.filter_eq_nil_iff.mpr ?_
  intro e he
  rcases loopRun_mem rk out status fuel start e he with h | h <;>
    subst h <;> simp [Event.isTransportInit]

/-- C7: once the options are parsed and the output backend is up,
exactly one transport is initialized (scream.c lines 224-237): the
shared-memory one, with the configured device path, when shared-memory
mode was selected, otherwise the network one with the configured mode,
interface, port and group; and every receive call of the run goes to
the matching receive function. -/
theorem C7_transport_selection (env : Env) (opts : List CmdOpt) (fuel : Nat)
    (cfg : Config) (out : OutputKind)
    (hp : parseOpts env.resolveIface
        (defaultConfig env.pulseEnabled env.alsaEnabled) opts =
      Except.ok cfg)
    (ho : (outputPhase env cfg).2 = some out) :
    (cfg.receiver_mode = ReceiverType.SharedMem →
      (runMain env opts false fuel).events.filter Event.isTransportInit =
          [Event.initShmem cfg.ivshmem_device] ∧
        ∀ e ∈ (runMain env opts false fuel).events, ∀ r,
          e = Event.receive r → r = ReceiverKind.shmem) ∧
    (cfg.receiver_mode ≠ ReceiverType.SharedMem →
      (runMain env opts false fuel).events.filter Event.isTransportInit =
          [Event.initNetwork cfg.receiver_mode cfg.iface cfg.port
            cfg.multicast_group] ∧
        ∀ e ∈ (runMain env opts false fuel).events, ∀ r,
          e = Event.receive r → r = ReceiverKind.network) := by
  have hkinds := runMain_variant_kinds env opts fuel cfg out hp ho
  have hev := runMain_output_ok env opts fuel cfg out hp ho
  constructor
  · intro hm
    have hrp := receiverPhase_of_shm cfg hm
    constructor
    · rw [hev]
      simp only [hrp]
      simp [List.filter_append, outputPhase_filter_transport,
        loopRun_filter_transport, Event.isTransportInit]
    · intro e he r her
      have h2 := (hkinds e he).1 r her
      rw [hrp] at h2
      simpa using h2
  · intro hm
    have hrp := receiverPhase_of_net cfg hm
    constructor
    · rw [hev]
      simp only [hrp]
      simp [List.filter_append, outputPhase_filter_transport,
        loopRun_filter_transport, Event.isTransportInit]
    · intro e he r her
      have h2 := (hkinds e he).1 r her
      rw [hrp] at h2
      simpa using h2

/-- Witness for C7: a run with `-m /dev/shm`. -/
theorem C7_transport_selection_witness :
    (parseOpts envOkAll.resolveIface
        (defaultConfig envOkAll.pulseEnabled envOkAll.alsaEnabled)
        [CmdOpt.m "/dev/shm"] = Except.ok cfgShm) ∧
      (outputPhase envOkAll cfgShm).2 = some OutputKind.pulse ∧
      cfgShm.receiver_mode = ReceiverType.SharedMem ∧
      ((runMain envOkAll [CmdOpt.m "/dev/shm"] false 4).events.filter
          Event.isTransportInit = [Event.initShmem (some "/dev/shm")] ∧
        ∀ e ∈ (runMain envOkAll [CmdOpt.m "/dev/shm"] false 4).events,
          ∀ r, e = Event.receive r → r = ReceiverKind.shmem) :=
  ⟨rfl, rfl, rfl,
   (C7_transport_selection envOkAll [CmdOpt.m "/dev/shm"] 4 cfgShm
      OutputKind.pulse rfl rfl).1 rfl⟩

/-- C8: the receive and send function pointers are chosen once at
startup (determined by the parsed configuration alone) and the whole
trace decomposes into the startup init calls followed by the loop
events, in which every receive call invokes the startup-selected
transport variant and every send call the startup-selected sink
variant. -/
theorem C8_fixed_variants (env : Env) (opts : List CmdOpt) (fuel : Nat)
    (cfg : Config) (out : OutputKind)
    (hp : parseOpts env.resolveIface
        (defaultConfig env.pulseEnabled env.alsaEnabled) opts =
      Except.ok cfg)
    (ho : (outputPhase env cfg).2 = some out) :
    ((runMain env opts false fuel).events =
        (outputPhase env cfg).1 ++ (receiverPhase cfg).1 ++
          (loopRun (receiverPhase cfg).2 out env.sendStatus fuel 0).1) ∧
      ∀ e ∈ (runMain env opts false fuel).events,
        (∀ r, e = Event.receive r → r = (receiverPhase cfg).2) ∧
        (∀ o2, e = Event.send o2 → o2 = out) := by
  have hev := runMain_output_ok env opts fuel cfg out hp ho
  exact ⟨by rw [hev], runMain_variant_kinds env opts fuel cfg out hp ho⟩

/-- Witness for C8: a run with `-m /dev/shm`, pulse output, 4
iterations of fuel. -/
theorem C8_fixed_variants_witness :
    (parseOpts envOkAll.resolveIface
        (defaultConfig envOkAll.pulseEnabled envOkAll.alsaEnabled)
        [CmdOpt.m "/dev/shm"] = Except.ok cfgShm) ∧
      (outputPhase envOkAll cfgShm).2 = some OutputKind.pulse ∧
      ∀ e ∈ (runMain envOkAll [CmdOpt.m "/dev/shm"] false 4).events,
        (∀ r, e = Event.receive r → r = ReceiverKind.shmem) ∧
        (∀ o2, e = Event.send o2 → o2 = OutputKind.pulse) :=
  ⟨rfl, rfl,
   (C8_fixed_variants envOkAll [CmdOpt.m "/dev/shm"] 4 cfgShm
      OutputKind.pulse rfl rfl).2⟩

/-- C4: every frame a transport hands downstream passed the shared
validation helper: its payload length is an exact multiple of
channels times sample_bits/8, channels lies in [1,255] and sample_bits
is 8, 16, 24 or 32; any datagram violating this is dropped and never
appears downstream. -/
theorem C4_validation (rateOf : Nat → Nat) (ds : List (List Nat))
    (fr : Frame) (h : fr ∈ transportDeliver rateOf ds) :
    validateFrame fr = some fr ∧
      fr.payload_len % (fr.format.channels * (fr.format.sample_bits / 8))
          = 0 ∧
      1 ≤ fr.format.channels ∧ fr.format.channels ≤ 255 ∧
      (fr.format.sample_bits = 8 ∨ fr.format.sample_bits = 16 ∨
        fr.format.sample_bits = 24 ∨ fr.format.sample_bits = 32) := by
  simp only [transportDeliver, List.mem_filterMap] at h
  obtain ⟨d, -, hbind⟩ := h
  rw [Option.bind_eq_some] at hbind
  obtain ⟨f1, -, hval⟩ := hbind
  unfold validateFrame at hval
  split at hval
  case isFalse => simp at hval
  case isTrue hcond =>
    obtain rfl : f1 = fr := Option.some.inj hval
    refine ⟨?_, ?_⟩
    · unfold validateFrame
      rw [if_pos hcond]
    · simp only [validFormat, AudioFormat.frameBytes, Bool.and_eq_true,
        Bool.or_eq_true, decide_eq_true_eq] at hcond
      refine ⟨?_, ?_, ?_, ?_⟩ <;> tauto

/-- Witness for C4: a valid 2-channel 16-bit datagram with a 4-byte
payload passes validation and arrives downstream. -/
theorem C4_validation_witness :
    ((⟨⟨48000, 16, 2, 0⟩, [9, 9, 9, 9]⟩ : Frame) ∈
        transportDeliver (fun _ => 48000)
          [[1, 16, 2, 0, 0, 9, 9, 9, 9]]) ∧
      (validateFrame ⟨⟨48000, 16, 2, 0⟩, [9, 9, 9, 9]⟩ =
          some ⟨⟨48000, 16, 2, 0⟩, [9, 9, 9, 9]⟩ ∧
        (Frame.payload_len ⟨⟨48000, 16, 2, 0⟩, [9, 9, 9, 9]⟩) % (2 * (16 / 8))
            = 0 ∧
        1 ≤ 2 ∧ 2 ≤ 255 ∧
        ((16 : Nat) = 8 ∨ (16 : Nat) = 16 ∨ (16 : Nat) = 24 ∨
          (16 : Nat) = 32)) :=
  ⟨by decide,
   C4_validation (fun _ => 48000) [[1, 16, 2, 0, 0, 9, 9, 9, 9]]
     ⟨⟨48000, 16, 2, 0⟩, [9, 9, 9, 9]⟩ (by decide)⟩

theorem trimTo_le_target (f : AudioFormat) (target : Nat) (q : List Frame) :
    durExceeds (trimTo f target q) f target = false := by
  induction q with
  | nil => simp [trimTo, durExceeds, queuedBytes]
  | cons fr rest ih =>
      by_cases h : durExceeds (fr :: rest) f target = true
      · simpa [trimTo, h] using ih
      · simp only [trimTo, h, if_false]
        simpa using h

theorem trimTo_suffix (f : AudioFormat) (target : Nat) (q : List Frame) :
    trimTo f target q <:+ q := by
  induction q with
  | nil => exact List.suffix_refl _
  | cons fr rest ih =>
      by_cases h : durExceeds (fr :: rest) f target = true
      · simp only [trimTo, h, if_true]
        exact ih.trans (List.suffix_cons fr rest)
      · simp only [trimTo]
        rw [if_neg h]

theorem durExceeds_mono (q : List Frame) (f : AudioFormat) {t1 t2 : Nat}
    (h : t1 ≤ t2) (h2 : durExceeds q f t2 = true) :
    durExceeds q f t1 = true := by
  simp only [durExceeds, decide_eq_true_eq] at h2 ⊢
  calc t1 * f.bytesPerSec ≤ t2 * f.bytesPerSec :=
        Nat.mul_le_mul_right _ h
    _ < queuedBytes q * 1000 := h2

theorem trimTo_le_max (f : AudioFormat) {target maxLat : Nat}
    (q : List Frame) (h : target ≤ maxLat) :
    durExceeds (trimTo f target q) f maxLat = false := by
  cases hb : durExceeds (trimTo f target q) f maxLat with
  | false => rfl
  | true =>
      have := durExceeds_mono _ _ h hb
      rw [trimTo_le_target] at this
      exact absurd this (by simp)

/-- C5: after any enqueue/drop decision of Delivery, the buffered
duration never exceeds the maximum latency; and whenever the enqueue
pushed the buffered duration above the maximum latency, the queue was
trimmed by dropping the oldest frames (the result is a suffix of the
enqueued queue, i.e. drops happen in FIFO order from the front) until
the buffered duration is back at or below the target latency. -/
theorem C5_latency_bound (target maxLat : Nat) (st : DeliveryState)
    (fr : Frame) (h : target ≤ maxLat) :
    durExceeds (deliveryStep target maxLat st fr).1.queue fr.format maxLat
        = false ∧
      ∀ q1, q1 = (if st.current = some fr.format then st.queue else [])
          ++ [fr] →
        durExceeds q1 fr.format maxLat = true →
          (deliveryStep target maxLat st fr).1.queue =
              trimTo fr.format target q1 ∧
            durExceeds (trimTo fr.format target q1) fr.format target
                = false ∧
            trimTo fr.format target q1 <:+ q1 := by
  by_cases hc : st.current = some fr.format
  · by_cases hex : durExceeds (st.queue ++ [fr]) fr.format maxLat = true
    · refine ⟨?_, ?_⟩
      · simp only [deliveryStep, hc, if_true, hex]
        exact trimTo_le_max fr.format _ h
      · intro q1 hq1 _
        rw [hq1]
        simp only [hc, if_true]
        refine ⟨?_, trimTo_le_target _ _ _, trimTo_suffix _ _ _⟩
        simp [deliveryStep, hc, hex]
    · refine ⟨?_, ?_⟩
      · simp only [deliveryStep, hc, if_true, hex, if_false]
        simpa using hex
      · intro q1 hq1 hex2
        rw [hq1] at hex2
        simp only [hc, if_true] at hex2
        exact absurd hex2 hex
  · by_cases hex : durExceeds [fr] fr.format maxLat = true
    · refine ⟨?_, ?_⟩
      · simp only [deliveryStep, hc, if_false, List.nil_append, hex,
          if_true]
        exact trimTo_le_max fr.format _ h
      · intro q1 hq1 _
        rw [hq1]
        simp only [hc, if_false, List.nil_append]
        refine ⟨?_, trimTo_le_target _ _ _, trimTo_suffix _ _ _⟩
        simp [deliveryStep, hc, hex]
    · refine ⟨?_, ?_⟩
      · simp only [deliveryStep, hc, if_false, List.nil_append, hex,
          if_false]
        simpa using hex
      · intro q1 hq1 hex2
        rw [hq1] at hex2
        simp only [hc, if_false, List.nil_append] at hex2
        exact absurd hex2 hex

/-- Witness for C5: the spec scenario - target 50 ms, max 200 ms,
250 ms already queued, one more 50 ms frame arriving; the queue is
trimmed from the front back to the 50 ms target. -/
theorem C5_latency_bound_witness :
    (50 ≤ 200) ∧
      durExceeds (deliveryStep 50 200 stS frS).1.queue frS.format 200
          = false ∧
      (durExceeds (List.replicate 5 frS ++ [frS]) frS.format 200 = true ∧
        (deliveryStep 50 200 stS frS).1.queue =
            trimTo frS.format 50 (List.replicate 5 frS ++ [frS]) ∧
          durExceeds (trimTo frS.format 50 (List.replicate 5 frS ++ [frS]))
              frS.format 50 = false ∧
          trimTo frS.format 50 (List.replicate 5 frS ++ [frS]) <:+
            List.replicate 5 frS ++ [frS]) :=
  ⟨by decide,
   (C5_latency_bound 50 200 stS frS (by decide)).1,
   by decide,
   (C5_latency_bound 50 200 stS frS (by decide)).2
     (List.replicate 5 frS ++ [frS]) (by decide) (by decide)⟩

theorem sinkSeesNoStale_append (cur : Option AudioFormat)
    (l1 l2 : List SinkEvent) :
    sinkSeesNoStale cur (l1 ++ l2) =
      (sinkSeesNoStale cur l1 && sinkSeesNoStale (curAfter cur l1) l2) := by
  induction l1 generalizing cur with
  | nil => simp [sinkSeesNoStale, curAfter]
  | cons e rest ih =>
      cases e with
      | deliver fr =>
          simp [sinkSeesNoStale, curAfter, ih, Bool.and_assoc]
      | reconfigure f =>
          simp [sinkSeesNoStale, curAfter, ih]

theorem curAfter_deliver_map (cur : Option AudioFormat) (q : List Frame) :
    curAfter cur (q.map SinkEvent.deliver) = cur := by
  induction q with
  | nil => rfl
  | cons g rest ih => simpa [curAfter] using ih

theorem noStale_deliver_map (cur : Option AudioFormat) (q : List Frame)
    (h : ∀ g ∈ q, some g.format = cur) :
    sinkSeesNoStale cur (q.map SinkEvent.deliver) = true := by
  induction q with
  | nil => rfl
  | cons g rest ih =>
      have hg := h g (by simp)
      simp only [List.map_cons, sinkSeesNoStale, Bool.and_eq_true,
        decide_eq_true_eq]
      exact ⟨hg.symm, ih (fun g2 hg2 => h g2 (by simp [hg2]))⟩

theorem deliveryStep_inv (target maxLat : Nat) (st : DeliveryState)
    (fr : Frame) (hinv : st.formatInv) :
    (deliveryStep target maxLat st fr).1.formatInv ∧
      (deliveryStep target maxLat st fr).1.current = some fr.format ∧
      sinkSeesNoStale st.current (deliveryStep target maxLat st fr).2
          = true ∧
      curAfter st.current (deliveryStep target maxLat st fr).2
          = some fr.format := by
  by_cases hc : st.current = some fr.format
  · refine ⟨?_, by simp [deliveryStep, hc], by simp [deliveryStep, hc,
      sinkSeesNoStale], by simp [deliveryStep, hc, curAfter]⟩
    · intro g hg
      simp only [deliveryStep, hc, if_true] at hg
      have hg2 : g ∈ st.queue ++ [fr] := by
        by_cases hex : durExceeds (st.queue ++ [fr]) fr.format maxLat = true
        · simp only [hex, if_true] at hg
          exact (trimTo_suffix _ _ _).subset hg
        · simp only [hex, if_false] at hg
          exact hg
      simp only [deliveryStep, hc, if_true]
      rcases List.mem_append.mp hg2 with hmem | hmem
      · exact (hinv g hmem).trans hc
      · simp only [List.mem_singleton] at hmem
        rw [hmem]
  · have hev : (deliveryStep target maxLat st fr).2 =
        st.queue.map SinkEvent.deliver ++
          [SinkEvent.reconfigure fr.format] := by
      simp [deliveryStep, hc]
    refine ⟨?_, by simp [deliveryStep, hc], ?_, ?_⟩
    · intro g hg
      simp only [deliveryStep, hc, if_false, List.nil_append] at hg
      have hg2 : g ∈ [fr] := by
        by_cases hex : durExceeds [fr] fr.format maxLat = true
        · simp only [hex, if_true] at hg
          exact (trimTo_suffix _ _ _).subset hg
        · simp only [hex, if_false] at hg
          exact hg
      simp only [List.mem_singleton] at hg2
      simp only [deliveryStep, hc, if_false]
      rw [hg2]
    · rw [hev, sinkSeesNoStale_append,
        noStale_deliver_map st.current st.queue hinv,
        curAfter_deliver_map]
      simp [sinkSeesNoStale]
    · rw [hev]
      induction st.queue with
      | nil => simp [curAfter]
      | cons g rest ih => simpa [curAfter] using ih

theorem deliveryRun_noStale (target maxLat : Nat) (frs : List Frame) :
    ∀ st : DeliveryState, st.formatInv →
      sinkSeesNoStale st.current (deliveryRun target maxLat st frs).2
        = true := by
  induction frs with
  | nil => intro st _; rfl
  | cons fr rest ih =>
      intro st hinv
      obtain ⟨hinv1, hcur1, hns, hca⟩ :=
        deliveryStep_inv target maxLat st fr hinv
      simp only [deliveryRun]
      rw [sinkSeesNoStale_append, hns, hca, ← hcur1]
      simpa using ih _ hinv1

/-- C6: on a frame whose format differs from the previous frame's,
Delivery flushes the whole queue to the sink and issues exactly one
reconfiguration call, in that order, before the new frame is queued
(afterwards the queue holds at most the new frame); consequently the
sink never observes audio of a stale format: over any run, every
delivered frame matches the sink's currently configured format. -/
theorem C6_format_change (target maxLat : Nat) (st : DeliveryState)
    (fr : Frame) (hinv : st.formatInv)
    (hne : st.current ≠ some fr.format) :
    (deliveryStep target maxLat st fr).2 =
        st.queue.map SinkEvent.deliver ++
          [SinkEvent.reconfigure fr.format] ∧
      reconfigCount (deliveryStep target maxLat st fr).2 = 1 ∧
      (deliveryStep target maxLat st fr).1.current = some fr.format ∧
      (deliveryStep target maxLat st fr).1.queue <:+ [fr] ∧
      sinkSeesNoStale st.current (deliveryStep target maxLat st fr).2
          = true ∧
      ∀ (frs : List Frame) (st0 : DeliveryState), st0.formatInv →
        sinkSeesNoStale st0.current
          (deliveryRun target maxLat st0 frs).2 = true := by
  obtain ⟨-, hcur, hns, -⟩ := deliveryStep_inv target maxLat st fr hinv
  have hev : (deliveryStep target maxLat st fr).2 =
      st.queue.map SinkEvent.deliver ++
        [SinkEvent.reconfigure fr.format] := by
    simp [deliveryStep, hne]
  refine ⟨hev, ?_, hcur, ?_, hns, ?_⟩
  · rw [hev]
    induction st.queue with
    | nil => rfl
    | cons g rest ih => simpa [reconfigCount, List.filter] using ih
  · simp only [deliveryStep, hne, if_false, List.nil_append]
    by_cases hex : durExceeds [fr] fr.format maxLat = true
    · simp only [hex, if_true]
      exact trimTo_suffix _ _ _
    · simp only [hex, if_false]
      exact List.suffix_refl _
  · intro frs st0 hinv0
    exact deliveryRun_noStale target maxLat frs st0 hinv0

/-- Witness for C6: Delivery holding a 44100 Hz frame receives a
48000 Hz frame - the queued frame is flushed, then a single
reconfiguration is issued. -/
theorem C6_format_change_witness :
    (stAB.formatInv ∧ stAB.current ≠ some frB.format) ∧
      ((deliveryStep 50 200 stAB frB).2 =
          stAB.queue.map SinkEvent.deliver ++
            [SinkEvent.reconfigure frB.format] ∧
        reconfigCount (deliveryStep 50 200 stAB frB).2 = 1 ∧
        (deliveryStep 50 200 stAB frB).1.current = some frB.format ∧
        (deliveryStep 50 200 stAB frB).1.queue <:+ [frB]) :=
  ⟨⟨show ∀ g ∈ stAB.queue, some g.format = stAB.current by decide,
    by decide⟩,
   (C6_format_change 50 200 stAB frB
      (show ∀ g ∈ stAB.queue, some g.format = stAB.current by decide)
      (by decide)).1,
   (C6_format_change 50 200 stAB frB
      (show ∀ g ∈ stAB.queue, some g.format = stAB.current by decide)
      (by decide)).2.1,
   (C6_format_change 50 200 stAB frB
      (show ∀ g ∈ stAB.queue, some g.format = stAB.current by decide)
      (by decide)).2.2.1,
   (C6_format_change 50 200 stAB frB
      (show ∀ g ∈ stAB.queue, some g.format = stAB.current by decide)
      (by decide)).2.2.2.1⟩

end Scream
